import Mathlib

/-!
Shallow embedding of the Rockstar Galaxy plugin (src/src/plugin.py) and
verification of its specification claims.

The plugin's title catalog (the `games_cache` dict from the `game_cache`
module) is modelled as a parameter: an association list from title ids to
per-title metadata.  Python dict keys are unique, so iterating the dict's
keys and looking each one up is the same as iterating its entry list.
External collaborators (the local install manager's path lookup, the OS
process-existence check, the HTTP client's trial identity call) are
modelled as function parameters, matching the spec's collaborator
interfaces.
-/

namespace Rockstar

/-- Per-title metadata of one `games_cache` entry: the fields plugin.py
reads (`rosTitleId`, `friendlyName`, `licenseInfo`). -/
structure GameInfo where
  rosTitleId : String
  friendlyName : String
  licenseInfo : String
deriving DecidableEq

/-- The title catalog: `games_cache`, an insertion-ordered dict modelled
as an association list from title id to metadata. -/
abbrev Catalog := List (String × GameInfo)

/-- The Galaxy `Game` value built by `create_game_from_title_id`
(`Game(rosTitleId, friendlyName, None, licenseInfo)`; the dlc argument is
the constant `None` and is omitted). -/
structure Game where
  game_id : String
  game_title : String
  license_info : String
deriving DecidableEq

/-- Galaxy `LocalGameState` values used by plugin.py:
`None_`, `Installed`, `Running`. -/
inductive LocalGameState where
  | none_
  | installed
  | running
deriving DecidableEq

/-- The Galaxy `LocalGame` value built by `create_local_game_from_title_id`. -/
structure LocalGame where
  game_id : String
  local_game_state : LocalGameState
deriving DecidableEq

/-- Python dict lookup `games_cache[title_id]`, as lookup in the entry
list; `none` models a `KeyError`. -/
def catFind (cat : Catalog) (k : String) : Option GameInfo :=
  (cat.find? (fun p => p.1 == k)).map Prod.snd

/-- The `Game` built from one catalog entry's metadata. -/
def mkGame (i : GameInfo) : Game :=
  ⟨i.rosTitleId, i.friendlyName, i.licenseInfo⟩

/-- `RockstarPlugin.create_game_from_title_id`: builds a `Game` from the
catalog entry for `k`; `none` models the `KeyError` raised when `k` is
not a catalog key. -/
def create_game_from_title_id (cat : Catalog) (k : String) : Option Game :=
  (catFind cat k).map mkGame

/-- The games of the catalog: `mkGame` of every entry.  The owned-games
cache only ever holds members of this list. -/
def catalogGames (cat : Catalog) : List Game :=
  cat.map (fun e => mkGame e.2)

/-- `RockstarPlugin.create_total_games_cache`: one `Game` per catalog
entry, in catalog order. -/
def total_games_cache (cat : Catalog) : List Game :=
  cat.map (fun e => mkGame e.2)

/-- Python's substring test `sub in line`, at character level. -/
def strContains (line sub : String) : Bool :=
  decide (sub.data <:+: line.data)

/-- Python's `str.strip()`: drop whitespace from both ends. -/
def pyStrip (l : List Char) : List Char :=
  ((l.dropWhile Char.isWhitespace).reverse.dropWhile Char.isWhitespace).reverse

/-- The fixed-offset field extraction `line[65:75].strip()` from
`get_owned_games`: characters 65 to 74 (0-indexed), whitespace-trimmed. -/
def extract_title_id (line : String) : String :=
  ⟨pyStrip ((line.data.drop 65).take 10)⟩

/-- What the scan loop of `get_owned_games` does with one log line:
`branchFound` for a non-launcher line containing `"on branch "` (carrying
the extracted title id), `noBranches` for a line containing
`"no branches!"`, `skip` otherwise. -/
inductive LineVerdict where
  | branchFound (title_id : String)
  | noBranches
  | skip
deriving DecidableEq

/-- The line classification of `get_owned_games`' scan loop:
`if ("launcher" not in line) and ("on branch " in line)` … `elif
"no branches!" in line` … -/
def classify_line (line : String) : LineVerdict :=
  if !(strContains line "launcher") && strContains line "on branch " then
    .branchFound (extract_title_id line)
  else if strContains line "no branches!" then
    .noBranches
  else
    .skip

/-- Mutable state of the backward scan loop: the plugin's owned-games
cache (appended to in place), the local `owned_title_ids` list, and the
`checked_games_count` counter. -/
structure ScanState where
  cache : List Game
  owned_title_ids : List String
  checked : Nat
deriving DecidableEq

/-- Outcome of the scan loop: normal termination (line list exhausted, or
`checked_games_count == total_games_count` hit the `break`), or a
`KeyError` escaping from `create_game_from_title_id` with the cache as
mutated so far. -/
inductive ScanOut where
  | ok (s : ScanState)
  | keyError (s : ScanState)
deriving DecidableEq

/-- The cache held in either scan outcome. -/
def ScanOut.cacheOf : ScanOut → List Game
  | .ok s => s.cache
  | .keyError s => s.cache

/-- The backward scan loop of `get_owned_games` over the log lines in
most-recent-first order.  `total` is `total_games_count = len(games_cache)`.
Each iteration classifies the line, then checks
`if checked_games_count == total_games_count: break`. -/
def scanLines (cat : Catalog) (total : Nat) : List String → ScanState → ScanOut
  | [], s => .ok s
  | line :: rest, s =>
    match classify_line line with
    | .branchFound title_id =>
      let owned' := s.owned_title_ids ++ [title_id]
      match create_game_from_title_id cat title_id with
      | none => .keyError { s with owned_title_ids := owned' }
      | some g =>
        let cache' := if g ∈ s.cache then s.cache else s.cache ++ [g]
        let s' : ScanState := ⟨cache', owned', s.checked + 1⟩
        if s'.checked == total then .ok s' else scanLines cat total rest s'
    | .noBranches =>
      let s' : ScanState := { s with checked := s.checked + 1 }
      if s'.checked == total then .ok s' else scanLines cat total rest s'
    | .skip =>
      if s.checked == total then .ok s else scanLines cat total rest s

/-- Everything observable about one `get_owned_games` call: the
owned-games cache afterwards, the `rosTitleId`s passed to `remove_game`
in order, the value returned to the caller (`none` models Python's bare
`return` and an escaped exception), whether the missing-log warning was
logged, whether a `KeyError` escaped, and whether the cache attribute was
rebound to a fresh list object (it is only in the unauthenticated branch;
elsewhere the existing list is mutated in place). -/
structure OwnedOut where
  cache : List Game
  removals : List String
  returned : Option (List Game)
  warned : Bool
  crashed : Bool
  rebound : Bool
deriving DecidableEq

/-- The catalog-order fallback of `get_owned_games` when the log file is
missing: for each catalog title, append its `Game` to the cache unless an
equal `Game` is already present. -/
def fallbackAdd : Catalog → List Game → List Game
  | [], cache => cache
  | e :: cat, cache =>
    fallbackAdd cat (if mkGame e.2 ∈ cache then cache else cache ++ [mkGame e.2])

/-- `RockstarPlugin.get_owned_games`.  Parameters: the catalog, whether
`is_authenticated()` holds, whether `os.path.exists(log_file)` holds, the
log lines in the backward order `FileReadBackwards` yields them, and the
owned-games cache on entry. -/
def get_owned_games (cat : Catalog) (auth : Bool) (logExists : Bool)
    (linesBack : List String) (cache : List Game) : OwnedOut :=
  if !auth then
    { cache := []
      removals := cat.map (fun e => e.2.rosTitleId)
      returned := none
      warned := false
      crashed := false
      rebound := true }
  else if logExists then
    match scanLines cat cat.length linesBack ⟨cache, [], 0⟩ with
    | .keyError s =>
      { cache := s.cache, removals := [], returned := none,
        warned := false, crashed := true, rebound := false }
    | .ok s =>
      { cache := s.cache
        removals := (cat.filter (fun e => !(s.owned_title_ids.contains e.1))).map
          (fun e => e.2.rosTitleId)
        returned := some s.cache
        warned := false
        crashed := false
        rebound := false }
  else
    let cache' := fallbackAdd cat cache
    { cache := cache', removals := [], returned := some cache',
      warned := true, crashed := false, rebound := false }

/-- Modelled from the spec: `get_game_title_id_from_ros_title_id` lives in
the `game_cache` module, which is not part of the given source.  Per the
spec, host events are keyed by the catalog's stable title identifier,
"translated at the boundary into the host's own opaque game identifier";
the function's name and its uses say it inverts that translation, so it is
modelled as the reverse catalog lookup: the first title id whose
`rosTitleId` equals the given host-facing id. -/
def get_game_title_id_from_ros_title_id (cat : Catalog) (ros : String) : Option String :=
  (cat.find? (fun p => p.2.rosTitleId == ros)).map Prod.fst

/-- Lookup in `running_games_pids`: the tracked process handle for a
title, if any (`running_games_pids[title_id][0]`; the second component of
each Python entry is the constant `True` and is omitted). -/
def lookupPid (pids : List (String × Nat)) (k : String) : Option Nat :=
  (pids.find? (fun p => p.1 == k)).map Prod.snd

/-- `RockstarPlugin.create_local_game_from_title_id`; `none` models the
`KeyError` raised when `k` is not a catalog key. -/
def create_local_game_from_title_id (cat : Catalog) (k : String)
    (is_running is_installed : Bool) : Option LocalGame :=
  (catFind cat k).map (fun i =>
    if is_running then ⟨i.rosTitleId, .running⟩
    else if is_installed then ⟨i.rosTitleId, .installed⟩
    else ⟨i.rosTitleId, .none_⟩)

/-- The loop body of `get_local_games` over the `total_games_cache` list.
`getPath` is the local install manager's `get_path_to_game`, `procAlive`
the OS `check_if_process_exists`.  A `none` result models an exception:
either a failed host-id translation or a `KeyError` from
`create_local_game_from_title_id` (both unreachable when the ids iterated
come from the catalog). -/
def local_games_loop (cat : Catalog) (getPath : String → Option String)
    (procAlive : Nat → Bool) (pids : List (String × Nat)) :
    List Game → Option (List LocalGame)
  | [] => some []
  | game :: rest =>
    match get_game_title_id_from_ros_title_id cat game.game_id with
    | none => none
    | some title_id =>
      let lg? :=
        match getPath title_id with
        | some _ =>
          match lookupPid pids title_id with
          | some pid =>
            if procAlive pid then create_local_game_from_title_id cat title_id true true
            else create_local_game_from_title_id cat title_id false true
          | none => create_local_game_from_title_id cat title_id false true
        | none => create_local_game_from_title_id cat title_id false false
      match lg? with
      | none => none
      | some lg => (local_games_loop cat getPath procAlive pids rest).map (lg :: ·)

/-- `RockstarPlugin.get_local_games`: one `LocalGame` per entry of
`total_games_cache`, in order. -/
def get_local_games (cat : Catalog) (getPath : String → Option String)
    (procAlive : Nat → Bool) (pids : List (String × Nat)) : Option (List LocalGame) :=
  local_games_loop cat getPath procAlive pids (total_games_cache cat)

/-- The plugin's mutable caches relevant to the claims, as set up in
`__init__`: `owned_games_cache`, `local_games_cache`, `running_games_pids`. -/
structure PState where
  owned_games_cache : List Game
  local_games_cache : List LocalGame
  running_games_pids : List (String × Nat)

/-- The caches right after `__init__`: all empty. -/
def initState : PState :=
  { owned_games_cache := [], local_games_cache := [], running_games_pids := [] }

/-- Observable outcome of one `check_game_statuses` pass: the state
afterwards, the `LocalGame`s passed to `update_local_game_status` in
order, and whether an exception escaped from `get_local_games`. -/
structure StatusOut where
  state : PState
  events : List LocalGame
  crashed : Bool

/-- `RockstarPlugin.check_game_statuses`: recompute the local games, then
call `update_local_game_status` on every element of the recomputed list —
unconditionally, with no comparison against the cached state. -/
def check_game_statuses (cat : Catalog) (getPath : String → Option String)
    (procAlive : Nat → Bool) (st : PState) : StatusOut :=
  match get_local_games cat getPath procAlive st.running_games_pids with
  | none => { state := st, events := [], crashed := true }
  | some locals =>
    { state := { st with local_games_cache := locals }, events := locals, crashed := false }

/-- Observable outcome of one `check_for_new_games` pass: the state
afterwards, the `Game`s passed to `add_game`, the `rosTitleId`s passed to
`remove_game` (inside `get_owned_games`), and whether an exception
escaped. -/
structure NewGamesOut where
  state : PState
  adds : List Game
  removals : List String
  crashed : Bool

/-- `RockstarPlugin.check_for_new_games`.  In Python,
`old_games_cache = self.owned_games_cache` binds the same list object the
scan then appends to in place, so after the call `old_games_cache` shows
the appended contents too, except in the unauthenticated branch where the
attribute was rebound to a fresh empty list; `oldView` reproduces that
reference semantics.  On a crash inside `get_owned_games` the add loop is
skipped. -/
def check_for_new_games (cat : Catalog) (auth : Bool) (logExists : Bool)
    (linesBack : List String) (st : PState) : NewGamesOut :=
  let r := get_owned_games cat auth logExists linesBack st.owned_games_cache
  let oldView := if r.rebound then st.owned_games_cache else r.cache
  let adds := if r.crashed then [] else r.cache.filter (fun g => !decide (g ∈ oldView))
  { state := { st with owned_games_cache := r.cache }
    adds := adds
    removals := r.removals
    crashed := r.crashed }

/-- Result of `RockstarPlugin.authenticate`: the `NextStep` directive, a
successful `Authentication(rockstar_id, display_name)`, or a raised
`InvalidCredentials`. -/
inductive AuthResult where
  | nextStep
  | auth (rockstar_id display_name : String)
  | invalidCredentials
deriving DecidableEq

/-- `RockstarPlugin.authenticate`.  `stored` is the optional stored
credential blob; `call n` is the outcome of the n-th invocation of the
HTTP client's trial identity call `self._http_client.authenticate()`
(`none` = it raised), returning the `(rockstar_id, display_name)` pair.
A failure anywhere in the first `try` block — cookie deserialization
included — lands in the same `except` handler and is followed by exactly
one retry of the trial call. -/
def authenticate (stored : Option (List (String × String)))
    (call : Nat → Option (String × String)) : AuthResult :=
  match stored with
  | none => .nextStep
  | some _ =>
    match call 0 with
    | some u => .auth u.1 u.2
    | none =>
      match call 1 with
      | some u => .auth u.1 u.2
      | none => .invalidCredentials

/-- Scheduler events: a `tick`, and per-pass completion or crash.
A spawned pass sets its in-progress flag in its first statement, before
its first suspension point, so under the event loop's cooperative
scheduling the flag is set before any later tick can observe it unset;
the `tick` event therefore spawns and sets the flag atomically.  A
`finish` event is the pass resetting its flag after its trailing sleep; a
`crash` event is the pass dying with an exception, leaving the flag set. -/
inductive SchedEvt where
  | tick
  | finishOwnership
  | finishPresence
  | crashOwnership
  | crashPresence
deriving DecidableEq

/-- Scheduler state: the two in-progress flags of the plugin
(`checking_for_new_games`, `updating_game_statuses`) plus, for the
non-reentrancy statement, the number of in-flight invocations of each
pass. -/
structure SchedState where
  checking_for_new_games : Bool
  updating_game_statuses : Bool
  ownInFlight : Nat
  presInFlight : Nat
deriving DecidableEq

/-- Scheduler state right after `__init__`: both flags false, nothing in
flight. -/
def schedInit : SchedState :=
  { checking_for_new_games := false, updating_game_statuses := false,
    ownInFlight := 0, presInFlight := 0 }

/-- One scheduler step.  `RockstarPlugin.tick` starts
`check_for_new_games` only when `checking_for_new_games` is unset and
`check_game_statuses` only when `updating_game_statuses` is unset; each
pass sets its flag first and resets it last. -/
def sched_step (s : SchedState) : SchedEvt → SchedState
  | .tick =>
    let s1 :=
      if !s.checking_for_new_games then
        { s with checking_for_new_games := true, ownInFlight := s.ownInFlight + 1 }
      else s
    if !s1.updating_game_statuses then
      { s1 with updating_game_statuses := true, presInFlight := s1.presInFlight + 1 }
    else s1
  | .finishOwnership =>
    if s.ownInFlight > 0 then
      { s with checking_for_new_games := false, ownInFlight := s.ownInFlight - 1 }
    else s
  | .finishPresence =>
    if s.presInFlight > 0 then
      { s with updating_game_statuses := false, presInFlight := s.presInFlight - 1 }
    else s
  | .crashOwnership =>
    if s.ownInFlight > 0 then { s with ownInFlight := s.ownInFlight - 1 } else s
  | .crashPresence =>
    if s.presInFlight > 0 then { s with presInFlight := s.presInFlight - 1 } else s

/-- Run the scheduler over a sequence of events. -/
def sched_run (evts : List SchedEvt) : SchedState :=
  evts.foldl sched_step schedInit

/-- The spec's three-case presence contract for one catalog entry, stated
directly from the spec's words for comparison with `get_local_games`: no
install path → `NotInstalled`; a path plus a tracked process handle the
oracle reports alive → `Running`; a path in every other case →
`Installed`. -/
def expected_local (getPath : String → Option String) (procAlive : Nat → Bool)
    (pids : List (String × Nat)) (e : String × GameInfo) : LocalGame :=
  match getPath e.1 with
  | none => ⟨e.2.rosTitleId, .none_⟩
  | some _ =>
    match lookupPid pids e.1 with
    | some pid =>
      if procAlive pid then ⟨e.2.rosTitleId, .running⟩ else ⟨e.2.rosTitleId, .installed⟩
    | none => ⟨e.2.rosTitleId, .installed⟩

/-- Input of one refresh pass: an ownership-refresh pass
(`check_for_new_games`) with its authentication, log-presence and
log-content environment, or a presence-refresh pass
(`check_game_statuses`) with its collaborator answers. -/
inductive PassInput where
  | ownership (auth logExists : Bool) (linesBack : List String)
  | presence (getPath : String → Option String) (procAlive : Nat → Bool)

/-- State transformation of one refresh pass. -/
def apply_pass (cat : Catalog) (st : PState) : PassInput → PState
  | .ownership auth logExists linesBack =>
    (check_for_new_games cat auth logExists linesBack st).state
  | .presence getPath procAlive =>
    (check_game_statuses cat getPath procAlive st).state

/-- The caches after a sequence of refresh passes starting from the
`__init__` state. -/
def run_passes (cat : Catalog) (passes : List PassInput) : PState :=
  passes.foldl (apply_pass cat) initState

/-- Whether the scan loop counts a line toward `checked_games_count`:
true exactly for the lines classified as branch evidence or as a
no-branches report. -/
def evidence_line (line : String) : Bool :=
  match classify_line line with
  | .branchFound _ => true
  | .noBranches => true
  | .skip => false

/-- Number of evidence lines in a line list, counted with multiplicity. -/
def countEvidence (lines : List String) : Nat :=
  (lines.filter evidence_line).length

/-! Concrete instances used by witnesses and counterexamples. -/

/-- Sample catalog metadata for a first title. -/
def infoGta : GameInfo := ⟨"ros_gta5", "Grand Theft Auto V", "SinglePurchase"⟩

/-- Sample catalog metadata for a second title. -/
def infoRdr : GameInfo := ⟨"ros_rdr2", "Red Dead Redemption 2", "SinglePurchase"⟩

/-- A one-title sample catalog. -/
def cat1 : Catalog := [("gta5", infoGta)]

/-- A two-title sample catalog. -/
def cat2 : Catalog := [("gta5", infoGta), ("rdr2", infoRdr)]

/-- A log line whose characters 55–64 are `"on branch "` and whose
extraction window (characters 65–74) starts with the given title id. -/
def lineFor (t : String) : String :=
  String.mk (List.replicate 55 'x') ++ "on branch " ++ t

/-- A log line whose 1-indexed characters 65–75 are `"  LIBERTYCY"` and
which contains `"on branch "` (at characters 54–63) and not `"launcher"`. -/
def sampleLibertyLine : String :=
  String.mk (List.replicate 54 'x') ++ "on branch " ++ "  LIBERTYCY"

/-- A backward log whose two most recent lines repeat the first title's
branch evidence and whose third line is the second title's evidence. -/
def demoLog : List String := [lineFor "gta5", lineFor "gta5", lineFor "rdr2"]

/-- An install manager that knows no install path. -/
def noPath : String → Option String := fun _ => none

/-- An install manager that knows a path for the first sample title only. -/
def demoPath : String → Option String :=
  fun k => if k == "gta5" then some "C:\\Program Files\\Rockstar Games" else none

/-- A process oracle under which no handle exists. -/
def deadProc : Nat → Bool := fun _ => false

/-- A trial identity call that fails once, then succeeds. -/
def callFailOnce : Nat → Option (String × String) :=
  fun n => if n = 0 then none else some ("5577006791947779410", "SampleUser")

/-- A trial identity call that always fails. -/
def callFailAlways : Nat → Option (String × String) := fun _ => none

/-- A sample pass sequence: an ownership pass against a missing log, then
a presence pass. -/
def demoPasses : List PassInput :=
  [.ownership true false [], .presence demoPath deadProc]

/-! Helper lemmas. -/

theorem create_game_mem {cat : Catalog} {k : String} {g : Game}
    (h : create_game_from_title_id cat k = some g) : g ∈ catalogGames cat := by
  unfold create_game_from_title_id catFind at h
  rw [Option.map_map] at h
  obtain ⟨e, he, rfl⟩ := Option.map_eq_some'.mp h
  exact List.mem_map.mpr ⟨e, List.mem_of_find?_eq_some he, rfl⟩

theorem mem_fallbackAdd {g : Game} :
    ∀ (cat : Catalog) (acc : List Game),
      g ∈ fallbackAdd cat acc ↔ g ∈ acc ∨ g ∈ catalogGames cat := by
  intro cat
  induction cat with
  | nil => intro acc; simp [fallbackAdd, catalogGames]
  | cons e cat ih =>
    intro acc
    have hcg : catalogGames (e :: cat) = mkGame e.2 :: catalogGames cat := rfl
    rw [show fallbackAdd (e :: cat) acc
        = fallbackAdd cat (if mkGame e.2 ∈ acc then acc else acc ++ [mkGame e.2]) from rfl,
      ih, hcg]
    by_cases hmem : mkGame e.2 ∈ acc
    · rw [if_pos hmem]
      constructor
      · rintro (h | h)
        · exact Or.inl h
        · exact Or.inr (List.mem_cons_of_mem _ h)
      · rintro (h | h)
        · exact Or.inl h
        · rcases List.mem_cons.mp h with rfl | h
          · exact Or.inl hmem
          · exact Or.inr h
    · rw [if_neg hmem]
      constructor
      · rintro (h | h)
        · rcases List.mem_append.mp h with h | h
          · exact Or.inl h
          · exact Or.inr (List.mem_cons.mpr (Or.inl (List.mem_singleton.mp h)))
        · exact Or.inr (List.mem_cons_of_mem _ h)
      · rintro (h | h)
        · exact Or.inl (List.mem_append.mpr (Or.inl h))
        · rcases List.mem_cons.mp h with rfl | h
          · exact Or.inl (List.mem_append.mpr (Or.inr (List.mem_singleton.mpr rfl)))
          · exact Or.inr h

theorem scanLines_cache_mem {cat : Catalog} {total : Nat} :
    ∀ (lines : List String) (s : ScanState) (g : Game),
      g ∈ (scanLines cat total lines s).cacheOf → g ∈ s.cache ∨ g ∈ catalogGames cat := by
  intro lines
  induction lines with
  | nil =>
    intro s g h
    simp only [scanLines, ScanOut.cacheOf] at h
    exact Or.inl h
  | cons line rest ih =>
    intro s g h
    simp only [scanLines] at h
    split at h
    · -- branchFound
      split at h
      · -- create_game_from_title_id = none: KeyError with unchanged cache
        simp only [ScanOut.cacheOf] at h
        exact Or.inl h
      · -- create_game_from_title_id = some g'
        rename_i tid _ g' hcr
        split at h
        · -- break after this line
          simp only [ScanOut.cacheOf] at h
          split at h
          · exact Or.inl h
          · rcases List.mem_append.mp h with h | h
            · exact Or.inl h
            · exact Or.inr (List.mem_singleton.mp h ▸ create_game_mem hcr)
        · -- continue scanning
          rcases ih _ _ h with h | h
          · simp only at h
            split at h
            · exact Or.inl h
            · rcases List.mem_append.mp h with h | h
              · exact Or.inl h
              · exact Or.inr (List.mem_singleton.mp h ▸ create_game_mem hcr)
          · exact Or.inr h
    · -- noBranches
      split at h
      · simp only [ScanOut.cacheOf] at h
        exact Or.inl h
      · have h' := ih _ _ h
        exact h'
    · -- skip
      split at h
      · simp only [ScanOut.cacheOf] at h
        exact Or.inl h
      · exact ih _ _ h

theorem scanLines_cache_mono {cat : Catalog} {total : Nat} :
    ∀ (lines : List String) (s : ScanState),
      s.cache ⊆ (scanLines cat total lines s).cacheOf := by
  intro lines
  induction lines with
  | nil =>
    intro s
    simp [scanLines, ScanOut.cacheOf]
  | cons line rest ih =>
    intro s
    simp only [scanLines]
    split
    · split
      · simp [ScanOut.cacheOf]
      · split
        · simp only [ScanOut.cacheOf]
          split
          · exact fun _ h => h
          · exact fun _ h => List.mem_append.mpr (Or.inl h)
        · intro x hx
          apply ih
          simp only
          split
          · exact hx
          · exact List.mem_append.mpr (Or.inl hx)
    · split
      · simp [ScanOut.cacheOf]
      · exact fun x hx => ih _ hx
    · split
      · simp [ScanOut.cacheOf]
      · exact fun x hx => ih _ hx

theorem get_owned_games_cache_mem_or {cat : Catalog} {auth logExists : Bool}
    {linesBack : List String} {cache : List Game} :
    ∀ g ∈ (get_owned_games cat auth logExists linesBack cache).cache,
      g ∈ cache ∨ g ∈ catalogGames cat := by
  intro g hg
  unfold get_owned_games at hg
  split at hg
  · simp at hg
  · split at hg
    · split at hg
      · rename_i s hs
        have : g ∈ (ScanOut.keyError s).cacheOf := hg
        rw [← hs] at this
        exact scanLines_cache_mem _ _ _ this
      · rename_i s hs
        have : g ∈ (ScanOut.ok s).cacheOf := hg
        rw [← hs] at this
        exact scanLines_cache_mem _ _ _ this
    · exact (mem_fallbackAdd cat cache).mp hg

theorem get_owned_games_cache_mem {cat : Catalog} {auth logExists : Bool}
    {linesBack : List String} {cache : List Game}
    (hsub : ∀ g ∈ cache, g ∈ catalogGames cat) :
    ∀ g ∈ (get_owned_games cat auth logExists linesBack cache).cache, g ∈ catalogGames cat := by
  intro g hg
  rcases get_owned_games_cache_mem_or g hg with h | h
  · exact hsub g h
  · exact h

theorem check_for_new_games_owned {cat : Catalog} {auth logExists : Bool}
    {linesBack : List String} {st : PState} :
    (check_for_new_games cat auth logExists linesBack st).state.owned_games_cache
      = (get_owned_games cat auth logExists linesBack st.owned_games_cache).cache := rfl

theorem get_owned_games_cache_mono {cat : Catalog} {logExists : Bool}
    {linesBack : List String} {cache : List Game} :
    cache ⊆ (get_owned_games cat true logExists linesBack cache).cache := by
  intro g hg
  unfold get_owned_games
  simp only [Bool.not_true, Bool.false_eq_true, if_false]
  split
  · split
    · rename_i s hs
      have := @scanLines_cache_mono cat cat.length linesBack ⟨cache, [], 0⟩ g hg
      rw [hs] at this
      exact this
    · rename_i s hs
      have := @scanLines_cache_mono cat cat.length linesBack ⟨cache, [], 0⟩ g hg
      rw [hs] at this
      exact this
  · exact (mem_fallbackAdd cat cache).mpr (Or.inl hg)

theorem find?_eq_of_mem_nodup {α β : Type} [BEq β] [LawfulBEq β] (f : α → β) :
    ∀ (l : List α) (a : α), (l.map f).Nodup → a ∈ l →
      l.find? (fun x => f x == f a) = some a := by
  intro l
  induction l with
  | nil => intro a _ ha; cases ha
  | cons b rest ih =>
    intro a hnd ha
    rw [List.find?_cons]
    cases hb : f b == f a with
    | true =>
      have hba : f b = f a := beq_iff_eq.mp hb
      rcases List.mem_cons.mp ha with rfl | harest
      · rfl
      · exfalso
        have : f a ∈ rest.map f := List.mem_map.mpr ⟨a, harest, rfl⟩
        rw [← hba] at this
        exact (List.nodup_cons.mp (by simpa using hnd)).1 this
    | false =>
      rcases List.mem_cons.mp ha with rfl | harest
      · rw [beq_self_eq_true] at hb
        cases hb
      · exact ih a (List.Nodup.of_cons (by simpa using hnd)) harest

theorem catFind_eq {cat : Catalog} (hk : (cat.map Prod.fst).Nodup)
    {e : String × GameInfo} (he : e ∈ cat) : catFind cat e.1 = some e.2 := by
  unfold catFind
  rw [find?_eq_of_mem_nodup Prod.fst cat e hk he]
  rfl

theorem rosFind_eq {cat : Catalog}
    (hr : (cat.map (fun e => e.2.rosTitleId)).Nodup)
    {e : String × GameInfo} (he : e ∈ cat) :
    cat.find? (fun p => p.2.rosTitleId == e.2.rosTitleId) = some e :=
  find?_eq_of_mem_nodup (fun e => e.2.rosTitleId) cat e hr he

theorem get_title_id_of_mem {cat : Catalog}
    (hr : (cat.map (fun e => e.2.rosTitleId)).Nodup)
    {e : String × GameInfo} (he : e ∈ cat) :
    get_game_title_id_from_ros_title_id cat (mkGame e.2).game_id = some e.1 := by
  unfold get_game_title_id_from_ros_title_id
  rw [show (mkGame e.2).game_id = e.2.rosTitleId from rfl, rosFind_eq hr he]
  rfl

theorem local_games_loop_eq {cat : Catalog} {getPath : String → Option String}
    {procAlive : Nat → Bool} {pids : List (String × Nat)}
    (hk : (cat.map Prod.fst).Nodup)
    (hr : (cat.map (fun e => e.2.rosTitleId)).Nodup) :
    ∀ (l : List (String × GameInfo)), (∀ e ∈ l, e ∈ cat) →
      local_games_loop cat getPath procAlive pids (l.map (fun e => mkGame e.2))
        = some (l.map (expected_local getPath procAlive pids)) := by
  intro l
  induction l with
  | nil => intro _; rfl
  | cons e rest ih =>
    intro hmem
    have hecat : e ∈ cat := hmem e (List.mem_cons_self e rest)
    have hfind : catFind cat e.1 = some e.2 := catFind_eq hk hecat
    simp only [List.map_cons, local_games_loop, get_title_id_of_mem hr hecat]
    rw [ih (fun x hx => hmem x (List.mem_cons_of_mem e hx))]
    unfold expected_local create_local_game_from_title_id
    cases hgp : getPath e.1 with
    | none => simp [hfind]
    | some p =>
      cases hlp : lookupPid pids e.1 with
      | none => simp [hfind]
      | some pid =>
        cases hpa : procAlive pid <;> simp [hfind, hpa]

theorem get_local_games_eq {cat : Catalog} {getPath : String → Option String}
    {procAlive : Nat → Bool} {pids : List (String × Nat)}
    (hk : (cat.map Prod.fst).Nodup)
    (hr : (cat.map (fun e => e.2.rosTitleId)).Nodup) :
    get_local_games cat getPath procAlive pids
      = some (cat.map (expected_local getPath procAlive pids)) := by
  unfold get_local_games total_games_cache
  exact local_games_loop_eq hk hr cat (fun _ hx => hx)

theorem local_games_loop_length {cat : Catalog} {getPath : String → Option String}
    {procAlive : Nat → Bool} {pids : List (String × Nat)} :
    ∀ (l : List Game) (out : List LocalGame),
      local_games_loop cat getPath procAlive pids l = some out → out.length = l.length := by
  intro l
  induction l with
  | nil =>
    intro out h
    simp only [local_games_loop] at h
    cases h
    rfl
  | cons game rest ih =>
    intro out h
    simp only [local_games_loop] at h
    split at h
    · cases h
    · split at h
      · cases h
      · obtain ⟨out', hout', rfl⟩ := Option.map_eq_some'.mp h
        simp [ih out' hout']

theorem countEvidence_cons {p : String} {rest : List String} :
    countEvidence (p :: rest)
      = countEvidence rest + (if evidence_line p then 1 else 0) := by
  simp only [countEvidence, List.filter_cons]
  split
  · simp [Nat.add_comm]
  · simp

theorem scanLines_stop {cat : Catalog} {total : Nat} :
    ∀ (pre : List String) (l : String) (post : List String) (s : ScanState),
      evidence_line l = true → s.checked + countEvidence pre + 1 = total →
      scanLines cat total (pre ++ l :: post) s = scanLines cat total (pre ++ [l]) s := by
  intro pre
  induction pre with
  | nil =>
    intro l post s hl hcount
    simp only [countEvidence, List.filter_nil, List.length_nil, Nat.add_zero] at hcount
    simp only [List.nil_append]
    unfold evidence_line at hl
    simp only [scanLines]
    cases hc : classify_line l with
    | branchFound tid =>
      simp only [hc]
      cases hcr : create_game_from_title_id cat tid with
      | none => rfl
      | some g' =>
        have hb : (s.checked + 1 == total) = true := beq_iff_eq.mpr hcount
        simp [hb]
    | noBranches =>
      simp only [hc]
      have hb : (s.checked + 1 == total) = true := beq_iff_eq.mpr hcount
      simp [hb]
    | skip =>
      rw [hc] at hl
      cases hl
  | cons p pre' ih =>
    intro l post s hl hcount
    rw [countEvidence_cons] at hcount
    simp only [List.cons_append]
    simp only [scanLines]
    cases hc : classify_line p with
    | branchFound tid =>
      have hep : evidence_line p = true := by unfold evidence_line; rw [hc]
      rw [hep, if_pos rfl] at hcount
      simp only [hc]
      cases hcr : create_game_from_title_id cat tid with
      | none => rfl
      | some g' =>
        have hb : (s.checked + 1 == total) = false := by
          rw [beq_eq_false_iff_ne]
          omega
        simp only [hb, Bool.false_eq_true, if_false]
        exact ih l post _ hl (by simp only; omega)
    | noBranches =>
      have hep : evidence_line p = true := by unfold evidence_line; rw [hc]
      rw [hep, if_pos rfl] at hcount
      simp only [hc]
      have hb : (s.checked + 1 == total) = false := by
        rw [beq_eq_false_iff_ne]
        omega
      simp only [hb, Bool.false_eq_true, if_false]
      exact ih l post _ hl (by simp only; omega)
    | skip =>
      have hep : evidence_line p = false := by unfold evidence_line; rw [hc]
      rw [hep] at hcount
      simp only [Bool.false_eq_true, if_false] at hcount
      simp only [hc]
      have hb : (s.checked == total) = false := by
        rw [beq_eq_false_iff_ne]
        omega
      simp only [hb, Bool.false_eq_true, if_false]
      exact ih l post s hl (by omega)

theorem check_game_statuses_pids {cat : Catalog} {getPath : String → Option String}
    {procAlive : Nat → Bool} {st : PState} :
    (check_game_statuses cat getPath procAlive st).state.running_games_pids
      = st.running_games_pids := by
  unfold check_game_statuses
  cases get_local_games cat getPath procAlive st.running_games_pids <;> rfl

theorem check_game_statuses_owned {cat : Catalog} {getPath : String → Option String}
    {procAlive : Nat → Bool} {st : PState} :
    (check_game_statuses cat getPath procAlive st).state.owned_games_cache
      = st.owned_games_cache := by
  unfold check_game_statuses
  cases get_local_games cat getPath procAlive st.running_games_pids <;> rfl

theorem check_game_statuses_events_eq {cat : Catalog} {getPath : String → Option String}
    {procAlive : Nat → Bool} {st1 st2 : PState}
    (h : st1.running_games_pids = st2.running_games_pids) :
    (check_game_statuses cat getPath procAlive st1).events
      = (check_game_statuses cat getPath procAlive st2).events := by
  unfold check_game_statuses
  rw [h]
  cases get_local_games cat getPath procAlive st2.running_games_pids <;> rfl

/-! The claims. -/

set_option maxRecDepth 100000

/-- C4: `authenticate` with stored credentials performs exactly one retry
of the trial identity call: if the first trial call fails and the retry
succeeds it returns a successful `Authentication` result without raising
`InvalidCredentials`; if both the first call and the single retry fail it
raises `InvalidCredentials`; and the outcome depends only on the first
two trial-call results, so no further attempts are made. -/
theorem C4_theorem (creds : List (String × String))
    (call : Nat → Option (String × String)) :
    (∀ u : String × String, call 0 = none → call 1 = some u →
        authenticate (some creds) call = .auth u.1 u.2)
  ∧ (call 0 = none → call 1 = none →
        authenticate (some creds) call = .invalidCredentials)
  ∧ (∀ call2 : Nat → Option (String × String), call2 0 = call 0 → call2 1 = call 1 →
        authenticate (some creds) call2 = authenticate (some creds) call) := by
  refine ⟨?_, ?_, ?_⟩
  · intro u h0 h1
    simp [authenticate, h0, h1]
  · intro h0 h1
    simp [authenticate, h0, h1]
  · intro call2 h0 h1
    cases hc0 : call 0 with
    | some u => simp [authenticate, h0, hc0]
    | none =>
      cases hc1 : call 1 with
      | some u => simp [authenticate, h0, h1, hc0, hc1]
      | none => simp [authenticate, h0, h1, hc0, hc1]

/-- C4 witness: a trial call failing once then succeeding yields the
`Authentication` result; a trial call failing twice yields
`InvalidCredentials`. -/
theorem C4_witness :
    callFailOnce 0 = none
  ∧ callFailOnce 1 = some ("5577006791947779410", "SampleUser")
  ∧ authenticate (some []) callFailOnce = .auth "5577006791947779410" "SampleUser"
  ∧ callFailAlways 0 = none
  ∧ callFailAlways 1 = none
  ∧ authenticate (some []) callFailAlways = .invalidCredentials :=
  ⟨rfl, rfl, (C4_theorem [] callFailOnce).1 ("5577006791947779410", "SampleUser") rfl rfl,
    rfl, rfl, (C4_theorem [] callFailAlways).2.1 rfl rfl⟩

/-- C5: every log line containing `"on branch "` that is not a launcher
housekeeping line is classified as branch evidence whose extracted title
identifier is the 10-character window at character offset 65, trimmed;
in particular a line whose 1-indexed characters 65 to 75 are
`"  LIBERTYCY"` yields the extracted id `"LIBERTYCY"`. -/
theorem C5_theorem :
    (∀ line : String, strContains line "on branch " = true →
        strContains line "launcher" = false →
        classify_line line
          = .branchFound (String.mk (pyStrip ((line.data.drop 65).take 10))))
  ∧ classify_line sampleLibertyLine = .branchFound "LIBERTYCY" := by
  constructor
  · intro line hob hl
    unfold classify_line
    rw [hl, hob]
    rfl
  · decide

/-- C5 witness: the theorem applied to the sample line whose 1-indexed
characters 65 to 75 are two spaces followed by `LIBERTYCY`. -/
theorem C5_witness :
    strContains sampleLibertyLine "on branch " = true
  ∧ strContains sampleLibertyLine "launcher" = false
  ∧ classify_line sampleLibertyLine
      = .branchFound (String.mk (pyStrip ((sampleLibertyLine.data.drop 65).take 10))) :=
  ⟨by decide, by decide, C5_theorem.1 sampleLibertyLine (by decide) (by decide)⟩

/-- C6: when the session is authenticated and the launcher log file does
not exist, `get_owned_games` warns rather than errors and returns the
full catalog as the owned set: provided the cache held only catalog games
(an invariant, see C8), its members afterwards are exactly the catalog
games. -/
theorem C6_theorem (cat : Catalog) (lines : List String) (cache : List Game)
    (hsub : ∀ g ∈ cache, g ∈ catalogGames cat) :
    (get_owned_games cat true false lines cache).warned = true
  ∧ (get_owned_games cat true false lines cache).crashed = false
  ∧ (get_owned_games cat true false lines cache).returned
      = some (get_owned_games cat true false lines cache).cache
  ∧ ∀ g, g ∈ (get_owned_games cat true false lines cache).cache ↔ g ∈ catalogGames cat := by
  refine ⟨rfl, rfl, rfl, ?_⟩
  intro g
  constructor
  · intro hg
    have hg' : g ∈ fallbackAdd cat cache := hg
    rcases (mem_fallbackAdd cat cache).mp hg' with h | h
    · exact hsub g h
    · exact h
  · intro hg
    exact show g ∈ fallbackAdd cat cache from (mem_fallbackAdd cat cache).mpr (Or.inr hg)

/-- C6 witness: with an empty prior cache and a missing log, the detector
returns exactly the two-title sample catalog, with the warning flagged. -/
theorem C6_witness :
    (∀ g ∈ ([] : List Game), g ∈ catalogGames cat2)
  ∧ ((get_owned_games cat2 true false [] []).warned = true
    ∧ (get_owned_games cat2 true false [] []).crashed = false
    ∧ (get_owned_games cat2 true false [] []).returned
        = some (get_owned_games cat2 true false [] []).cache
    ∧ ∀ g, g ∈ (get_owned_games cat2 true false [] []).cache ↔ g ∈ catalogGames cat2) :=
  ⟨by simp, C6_theorem cat2 [] [] (by simp)⟩

/-- C7 counterexample: in the unauthenticated branch `get_owned_games`
returns Python `None` (a bare `return`), not an empty owned list, so "returns
the empty set" is false as stated at this concrete input. -/
theorem C7_counterexample :
    (get_owned_games cat1 false true [] [mkGame infoGta]).returned = none
  ∧ ¬ ((get_owned_games cat1 false true [] [mkGame infoGta]).returned = some []) := by
  decide

/-- C7 as amended: when `is_authenticated()` is false, `get_owned_games`
returns no list at all (Python `None`), leaves the owned-games cache
empty, and signals removal of every catalog title — in particular of
every previously owned title, provided the prior cache held only catalog
games. -/
theorem C7_theorem (cat : Catalog) (logExists : Bool) (lines : List String)
    (cache : List Game) (hsub : ∀ g ∈ cache, g ∈ catalogGames cat) :
    (get_owned_games cat false logExists lines cache).returned = none
  ∧ (get_owned_games cat false logExists lines cache).cache = []
  ∧ (get_owned_games cat false logExists lines cache).removals
      = cat.map (fun e => e.2.rosTitleId)
  ∧ ∀ g ∈ cache, g.game_id ∈ (get_owned_games cat false logExists lines cache).removals := by
  refine ⟨rfl, rfl, rfl, ?_⟩
  intro g hg
  rcases List.mem_map.mp (hsub g hg) with ⟨e, he, rfl⟩
  exact show (mkGame e.2).game_id ∈ cat.map (fun e => e.2.rosTitleId) from
    List.mem_map.mpr ⟨e, he, rfl⟩

/-- C7 witness: the amended claim applied to the one-title catalog with
that title previously owned. -/
theorem C7_witness :
    (∀ g ∈ [mkGame infoGta], g ∈ catalogGames cat1)
  ∧ ((get_owned_games cat1 false true [] [mkGame infoGta]).returned = none
    ∧ (get_owned_games cat1 false true [] [mkGame infoGta]).cache = []
    ∧ (get_owned_games cat1 false true [] [mkGame infoGta]).removals
        = cat1.map (fun e => e.2.rosTitleId)
    ∧ ∀ g ∈ [mkGame infoGta],
        g.game_id ∈ (get_owned_games cat1 false true [] [mkGame infoGta]).removals) :=
  ⟨by decide, C7_theorem cat1 true [] [mkGame infoGta] (by decide)⟩

/-- C8: over every sequence of refresh passes from the initial state, the
owned-games cache only ever holds games of the catalog — an
out-of-catalog title id in an `"on branch "` line makes
`create_game_from_title_id` raise before anything is appended, so no
ownership record for it can enter the cache. -/
theorem C8_theorem (cat : Catalog) (passes : List PassInput) :
    ∀ g ∈ (run_passes cat passes).owned_games_cache, g ∈ catalogGames cat := by
  suffices h : ∀ (passes : List PassInput) (st : PState),
      (∀ g ∈ st.owned_games_cache, g ∈ catalogGames cat) →
      ∀ g ∈ (passes.foldl (apply_pass cat) st).owned_games_cache, g ∈ catalogGames cat by
    exact h passes initState (by simp [initState])
  intro passes
  induction passes with
  | nil => intro st hst; simpa using hst
  | cons p rest ih =>
    intro st hst
    simp only [List.foldl_cons]
    apply ih
    cases p with
    | ownership auth logExists linesBack =>
      intro g hg
      simp only [apply_pass] at hg
      rw [check_for_new_games_owned] at hg
      exact get_owned_games_cache_mem hst g hg
    | presence getPath procAlive =>
      intro g hg
      simp only [apply_pass] at hg
      rw [check_game_statuses_owned] at hg
      exact hst g hg

/-- C8 witness: after a sample ownership pass and a sample presence pass,
the first sample game is in the cache, and the theorem places it in the
catalog. -/
theorem C8_witness :
    mkGame infoGta ∈ (run_passes cat1 demoPasses).owned_games_cache
  ∧ mkGame infoGta ∈ catalogGames cat1 :=
  ⟨by decide, C8_theorem cat1 demoPasses (mkGame infoGta) (by decide)⟩

/-- C9: for a catalog with distinct title ids and distinct host-facing
ids, `get_local_games` maps each catalog title to exactly the spec's
three-state presence verdict (`expected_local`): no install path →
`None_`; a path plus a tracked process handle the oracle reports alive →
`Running`; a path in every other case — a tracked but dead handle
included — → `Installed`. -/
theorem C9_theorem (cat : Catalog) (getPath : String → Option String)
    (procAlive : Nat → Bool) (pids : List (String × Nat))
    (hk : (cat.map Prod.fst).Nodup)
    (hr : (cat.map (fun e => e.2.rosTitleId)).Nodup) :
    get_local_games cat getPath procAlive pids
      = some (cat.map (expected_local getPath procAlive pids)) :=
  get_local_games_eq hk hr

/-- C9 witness: in the two-title sample catalog, the first title has an
install path and a tracked handle the oracle reports dead: the theorem
applies and that title resolves to `Installed`, not `Running`. -/
theorem C9_witness :
    ((cat2.map Prod.fst).Nodup
    ∧ (cat2.map (fun e => e.2.rosTitleId)).Nodup
    ∧ expected_local demoPath deadProc [("gta5", 42)] ("gta5", infoGta)
        = ⟨"ros_gta5", .installed⟩)
  ∧ get_local_games cat2 demoPath deadProc [("gta5", 42)]
      = some (cat2.map (expected_local demoPath deadProc [("gta5", 42)])) :=
  ⟨⟨by decide, by decide, by decide⟩,
    C9_theorem cat2 demoPath deadProc [("gta5", 42)] (by decide) (by decide)⟩

/-- C10: over every event sequence of the cooperative scheduler — ticks,
pass completions, pass crashes — at most one invocation of the
ownership-refresh pass and at most one invocation of the presence-refresh
pass is in flight at any time: a tick only spawns a pass whose
in-progress flag is unset, and the flag stays set until the previous
invocation (its trailing sleep included) completes. -/
theorem C10_theorem (evts : List SchedEvt) :
    (sched_run evts).ownInFlight ≤ 1 ∧ (sched_run evts).presInFlight ≤ 1 := by
  suffices h : ∀ (evts : List SchedEvt) (s : SchedState),
      (s.ownInFlight ≤ 1 ∧ (s.ownInFlight = 1 → s.checking_for_new_games = true)
        ∧ s.presInFlight ≤ 1 ∧ (s.presInFlight = 1 → s.updating_game_statuses = true)) →
      ((evts.foldl sched_step s).ownInFlight ≤ 1
        ∧ ((evts.foldl sched_step s).ownInFlight = 1 →
            (evts.foldl sched_step s).checking_for_new_games = true)
        ∧ (evts.foldl sched_step s).presInFlight ≤ 1
        ∧ ((evts.foldl sched_step s).presInFlight = 1 →
            (evts.foldl sched_step s).updating_game_statuses = true)) by
    have hres := h evts schedInit (by simp [schedInit])
    exact ⟨hres.1, hres.2.2.1⟩
  intro evts
  induction evts with
  | nil => intro s hs; simpa using hs
  | cons e rest ih =>
    intro s hs
    simp only [List.foldl_cons]
    apply ih
    obtain ⟨h1, h2, h3, h4⟩ := hs
    cases e with
    | tick =>
      simp only [sched_step]
      by_cases hc : s.checking_for_new_games
        <;> by_cases hu : s.updating_game_statuses
        <;> simp only [hc, hu, Bool.not_true, Bool.not_false, Bool.false_eq_true, if_false,
              if_true]
      · exact ⟨h1, fun _ => trivial, h3, fun _ => trivial⟩
      · refine ⟨h1, fun _ => trivial, ?_, fun _ => trivial⟩
        have hp0 : s.presInFlight = 0 := by
          rcases Nat.lt_or_ge s.presInFlight 1 with h | h
          · omega
          · exact absurd (h4 (by omega)) hu
        omega
      · refine ⟨?_, fun _ => trivial, h3, fun _ => trivial⟩
        have ho0 : s.ownInFlight = 0 := by
          rcases Nat.lt_or_ge s.ownInFlight 1 with h | h
          · omega
          · exact absurd (h2 (by omega)) hc
        omega
      · have ho0 : s.ownInFlight = 0 := by
          rcases Nat.lt_or_ge s.ownInFlight 1 with h | h
          · omega
          · exact absurd (h2 (by omega)) hc
        have hp0 : s.presInFlight = 0 := by
          rcases Nat.lt_or_ge s.presInFlight 1 with h | h
          · omega
          · exact absurd (h4 (by omega)) hu
        exact ⟨by omega, fun _ => trivial, by omega, fun _ => trivial⟩
    | finishOwnership =>
      simp only [sched_step]
      by_cases hpos : s.ownInFlight > 0
      · rw [if_pos hpos]
        exact ⟨show s.ownInFlight - 1 ≤ 1 by omega,
          fun h => absurd (show s.ownInFlight - 1 = 1 from h) (by omega), h3, h4⟩
      · rw [if_neg hpos]
        exact ⟨h1, h2, h3, h4⟩
    | finishPresence =>
      simp only [sched_step]
      by_cases hpos : s.presInFlight > 0
      · rw [if_pos hpos]
        exact ⟨h1, h2, show s.presInFlight - 1 ≤ 1 by omega,
          fun h => absurd (show s.presInFlight - 1 = 1 from h) (by omega)⟩
      · rw [if_neg hpos]
        exact ⟨h1, h2, h3, h4⟩
    | crashOwnership =>
      simp only [sched_step]
      by_cases hpos : s.ownInFlight > 0
      · rw [if_pos hpos]
        exact ⟨show s.ownInFlight - 1 ≤ 1 by omega,
          fun h => absurd (show s.ownInFlight - 1 = 1 from h) (by omega), h3, h4⟩
      · rw [if_neg hpos]
        exact ⟨h1, h2, h3, h4⟩
    | crashPresence =>
      simp only [sched_step]
      by_cases hpos : s.presInFlight > 0
      · rw [if_pos hpos]
        exact ⟨h1, h2, show s.presInFlight - 1 ≤ 1 by omega,
          fun h => absurd (show s.presInFlight - 1 = 1 from h) (by omega)⟩
      · rw [if_neg hpos]
        exact ⟨h1, h2, h3, h4⟩

/-- C1 counterexample: in a two-title catalog, a log whose two most
recent lines repeat the first title's branch evidence terminates the scan
before the second title's own branch evidence (the very next line, which
classifies as evidence for it) is reached: the second title ends up not
owned and its removal is signaled, so duplicate evidence does advance the
stop counter. -/
theorem C1_counterexample :
    classify_line (lineFor "rdr2") = .branchFound "rdr2"
  ∧ demoLog = [lineFor "gta5", lineFor "gta5", lineFor "rdr2"]
  ∧ mkGame infoRdr ∉ (get_owned_games cat2 true true demoLog []).cache
  ∧ (get_owned_games cat2 true true demoLog []).removals = ["ros_rdr2"] := by
  decide

/-- C1 as amended: the backward scan stops exactly when the number of
evidence lines processed — counted with multiplicity, duplicate evidence
for an already-resolved title included — reaches the catalog size: log
content past the catalog-size-th evidence line never affects the result,
so a log whose recent lines repeat one title's evidence catalog-size
times terminates the scan before other titles are resolved. -/
theorem C1_theorem (cat : Catalog) (pre : List String) (l : String)
    (post : List String) (cache : List Game)
    (hl : evidence_line l = true)
    (hcount : countEvidence pre + 1 = cat.length) :
    get_owned_games cat true true (pre ++ l :: post) cache
      = get_owned_games cat true true (pre ++ [l]) cache := by
  unfold get_owned_games
  rw [scanLines_stop pre l post ⟨cache, [], 0⟩ hl (by simpa using hcount)]

/-- C1 witness: the theorem applied at the duplicate-evidence log — the
two duplicate lines alone already determine the result. -/
theorem C1_witness :
    evidence_line (lineFor "gta5") = true
  ∧ countEvidence [lineFor "gta5"] + 1 = cat2.length
  ∧ get_owned_games cat2 true true ([lineFor "gta5"] ++ lineFor "gta5" :: [lineFor "rdr2"]) []
      = get_owned_games cat2 true true ([lineFor "gta5"] ++ [lineFor "gta5"]) [] :=
  ⟨by decide, by decide,
    C1_theorem cat2 [lineFor "gta5"] (lineFor "gta5") [lineFor "rdr2"] [] (by decide)
      (by decide)⟩

/-- C2 counterexample: with a one-title catalog and unchanged collaborator
answers, the second presence-refresh pass in a row still emits one "local
state changed" notification (for the one catalog title), not zero. -/
theorem C2_counterexample :
    (check_game_statuses cat1 noPath deadProc
        (check_game_statuses cat1 noPath deadProc initState).state).events
      = [⟨"ros_gta5", .none_⟩]
  ∧ (check_game_statuses cat1 noPath deadProc
        (check_game_statuses cat1 noPath deadProc initState).state).events ≠ [] := by
  decide

/-- C2 as amended: `check_game_statuses` emits a "local state changed"
notification for every catalog title on every non-crashing pass,
regardless of the cached state: a second pass with identical collaborator
answers emits exactly the same catalog-size batch of notifications again,
not zero. -/
theorem C2_theorem (cat : Catalog) (getPath : String → Option String)
    (procAlive : Nat → Bool) (st : PState)
    (h : (check_game_statuses cat getPath procAlive st).crashed = false) :
    (check_game_statuses cat getPath procAlive
        (check_game_statuses cat getPath procAlive st).state).events
      = (check_game_statuses cat getPath procAlive st).events
  ∧ (check_game_statuses cat getPath procAlive st).events.length = cat.length := by
  constructor
  · exact check_game_statuses_events_eq check_game_statuses_pids
  · unfold check_game_statuses at h ⊢
    unfold get_local_games at h ⊢
    cases hgl : local_games_loop cat getPath procAlive st.running_games_pids
        (total_games_cache cat) with
    | none => rw [hgl] at h; cases h
    | some locals =>
      have hlen := local_games_loop_length (total_games_cache cat) locals hgl
      simpa [total_games_cache] using hlen

/-- C2 witness: the amended claim applied at the one-title catalog with
no install path anywhere. -/
theorem C2_witness :
    (check_game_statuses cat1 noPath deadProc initState).crashed = false
  ∧ ((check_game_statuses cat1 noPath deadProc
        (check_game_statuses cat1 noPath deadProc initState).state).events
      = (check_game_statuses cat1 noPath deadProc initState).events
    ∧ (check_game_statuses cat1 noPath deadProc initState).events.length = cat1.length) :=
  ⟨by decide, C2_theorem cat1 noPath deadProc initState (by decide)⟩

/-- C3 counterexample: an ownership pass over an existing but evidence-free
log detects nothing — the one catalog title is even signaled removed —
yet the previously cached game survives the pass, so the cache does not
equal the set detected in the pass. -/
theorem C3_counterexample :
    (get_owned_games cat1 true true [] [mkGame infoGta]).removals = ["ros_gta5"]
  ∧ (check_for_new_games cat1 true true [] ⟨[mkGame infoGta], [], []⟩).state.owned_games_cache
      = [mkGame infoGta]
  ∧ (check_for_new_games cat1 true true [] ⟨[mkGame infoGta], [], []⟩).state.owned_games_cache
      ≠ [] := by
  decide

/-- C3 as amended: an authenticated ownership-refresh pass merges rather
than replaces: every previously cached game survives the pass, and the
cache afterwards holds only previously cached games and games of titles
detected from the catalog — a title absent from the new detection is
*not* dropped from the cache. -/
theorem C3_theorem (cat : Catalog) (logExists : Bool) (lines : List String)
    (st : PState) :
    st.owned_games_cache
        ⊆ (check_for_new_games cat true logExists lines st).state.owned_games_cache
  ∧ ∀ g ∈ (check_for_new_games cat true logExists lines st).state.owned_games_cache,
      g ∈ st.owned_games_cache ∨ g ∈ catalogGames cat := by
  constructor
  · intro g hg
    rw [check_for_new_games_owned]
    exact get_owned_games_cache_mono hg
  · intro g hg
    rw [check_for_new_games_owned] at hg
    exact get_owned_games_cache_mem_or g hg

/-- C3 witness: the amended claim applied at the evidence-free log pass:
the previously cached game is still in the cache afterwards. -/
theorem C3_witness :
    mkGame infoGta ∈ (PState.mk [mkGame infoGta] [] []).owned_games_cache
  ∧ mkGame infoGta
      ∈ (check_for_new_games cat1 true true [] ⟨[mkGame infoGta], [], []⟩).state.owned_games_cache :=
  ⟨by decide, (C3_theorem cat1 true [] ⟨[mkGame infoGta], [], []⟩).1 (by decide)⟩

end Rockstar
